import Mathlib

/-!
Shallow embedding of the amapiano-channel media pipeline
(`src/batch_process.py`, `src/create_compilation.py`, `src/create_short.py`,
`src/create_video.py`, `src/fetch_suno.py`, `src/config.example.py`)
together with theorems settling the specification claims about it.

Python floats are modelled as rationals (`ℚ`); Python integer truncation
`int(x)` is `pytrunc`, float floor-division is `Int.floor` and float modulo
is `pymod`.  External effects (file existence, subprocess exit codes) are
passed in as explicit parameters, so every function is the pure control/data
flow of its Python original.
-/

/-- Python float modulo `a % b`: defined as `a - b * ⌊a / b⌋`, which is exactly
Python's semantics for floats; for `b > 0` the result lies in `[0, b)`. -/
def pymod (a b : ℚ) : ℚ := a - b * ⌊a / b⌋

/-- Python `int(x)` on a float: truncation toward zero. -/
def pytrunc (q : ℚ) : ℤ := if 0 ≤ q then ⌊q⌋ else ⌈q⌉

/-- Configuration constant `VIDEO_FPS = 30` from `src/config.example.py`. -/
def VIDEO_FPS : ℚ := 30

/-- Frame count `total_frames = int(duration * VIDEO_FPS)` as computed at
`src/create_compilation.py:143`, `src/create_video.py:49` and
`src/create_short.py:145`. -/
def total_frames (duration : ℚ) : ℤ := pytrunc (duration * VIDEO_FPS)

/-- Zero-left-pad to two digits: Python's `f"{n:02d}"` for the values that
occur here (all in `[0, 60)`). -/
def pad2 (n : ℤ) : String := if 0 ≤ n ∧ n < 10 then "0" ++ toString n else toString n

/-- Embedding of `format_timestamp` (`src/create_compilation.py` lines 31-38).
In the source, `hours = int(seconds // 3600)`, `minutes = int((seconds % 3600)
// 60)` and `secs = int(seconds % 60)`; the first two `int()` calls receive
floats that are already integral (results of floor division) and the third
receives a value in `[0, 60)`, so each equals a floor. -/
def format_timestamp (seconds : ℚ) : String :=
  let hours : ℤ := ⌊seconds / 3600⌋
  let minutes : ℤ := ⌊pymod seconds 3600 / 60⌋
  let secs : ℤ := ⌊pymod seconds 60⌋
  if 0 < hours then
    toString hours ++ ":" ++ pad2 minutes ++ ":" ++ pad2 secs
  else
    toString minutes ++ ":" ++ pad2 secs

/-! ## Mood classification (`src/batch_process.py` lines 14-62)

Keyword membership tests use Python's substring operator `in`; strings are
modelled as their character lists for the containment check. -/

/-- Keyword list of the `chill` entry of `MOOD_KEYWORDS`. -/
def CHILL_KW : List String :=
  ["nostalgic", "chill", "mellow", "relax", "warm", "soft", "gentle", "calm",
   "ambient", "study"]

/-- Keyword list of the `party` entry of `MOOD_KEYWORDS`. -/
def PARTY_KW : List String :=
  ["party", "dance", "energy", "club", "hype", "bass", "upbeat", "groove",
   "bounce", "high energy"]

/-- Keyword list of the `deep` entry of `MOOD_KEYWORDS`. -/
def DEEP_KW : List String :=
  ["deep", "soulful", "emotional", "introspective", "melancholic",
   "reflective", "moody"]

/-- Keyword list of the `fusion` entry of `MOOD_KEYWORDS`. -/
def FUSION_KW : List String :=
  ["fusion", "world", "experimental", "hausa", "fuji", "afrobeat", "goje",
   "traditional", "ethnic"]

/-- The `MOOD_KEYWORDS` dict (`src/batch_process.py` lines 15-20), as an
association list preserving Python's insertion order. -/
def MOOD_KEYWORDS : List (String × List String) :=
  [("chill", CHILL_KW), ("party", PARTY_KW), ("deep", DEEP_KW),
   ("fusion", FUSION_KW)]

/-- The mood set in declaration order. -/
def MOODS : List String := MOOD_KEYWORDS.map Prod.fst

/-- Python's `str.lower()` on the character list (identical to
`String.toLower`, but structurally recursive so that proofs can evaluate it). -/
def py_lower (s : String) : String := String.mk (s.toList.map Char.toLower)

/-- Python's substring test `p in s` (true at any position, including the
empty pattern). -/
def containsSub (s p : String) : Bool :=
  (List.range (s.toList.length + 1)).any fun i => p.toList.isPrefixOf (s.toList.drop i)

/-- Score of one mood in `detect_mood` (`src/batch_process.py` lines 56-59):
each keyword adds 1 if it occurs in the lowered description, so a keyword is
counted at most once no matter how often it occurs. -/
def mood_score (desc_lower : String) (keywords : List String) : ℕ :=
  (keywords.filter fun k => containsSub desc_lower k).length

/-- The `scores` dict of `detect_mood` (`src/batch_process.py` lines 54-59). -/
def mood_scores (description : String) : List (String × ℕ) :=
  MOOD_KEYWORDS.map fun ent => (ent.1, mood_score (py_lower description) ent.2)

/-- One comparison step of Python's `max(scores, key=scores.get)`: the running
best is replaced only on a strictly greater score, so the first key attaining
the maximum wins. -/
def pymax_pair (best cand : String × ℕ) : String × ℕ :=
  if best.2 < cand.2 then cand else best

/-- Python's `max(scores, key=scores.get)` over a nonempty association list in
insertion order. -/
def max_by_score (first : String × ℕ) (rest : List (String × ℕ)) : String × ℕ :=
  rest.foldl pymax_pair first

/-- Embedding of `detect_mood` (`src/batch_process.py` lines 51-62). -/
def detect_mood (description : String) : String :=
  match mood_scores description with
  | [] => "chill"
  | first :: rest =>
    let best := max_by_score first rest
    if 0 < best.2 then best.1 else "chill"

/-- Score of a mood as found in the `scores` dict (`scores[m]`, default 0). -/
def score_of (description mood : String) : ℕ :=
  ((mood_scores description).lookup mood).getD 0

/-- Number of positions of `s` at which the pattern `p` occurs. -/
def occCount (s p : String) : ℕ :=
  ((List.range (s.toList.length + 1)).filter fun i =>
    p.toList.isPrefixOf (s.toList.drop i)).length

/-- Modelled from the spec: scores a mood by "counting occurrences of each of
its keyword substrings", i.e. every occurrence of every keyword counts. -/
def occ_score (desc_lower : String) (keywords : List String) : ℕ :=
  (keywords.map (occCount desc_lower)).sum

/-- Modelled from the spec: the classifier that scores moods by occurrence
counts, keeping the rest of `detect_mood`'s data flow (highest non-zero score
wins, ties to the first-declared mood, default `chill`). -/
def detect_mood_by_occurrences (description : String) : String :=
  match MOOD_KEYWORDS.map fun ent => (ent.1, occ_score (py_lower description) ent.2) with
  | [] => "chill"
  | first :: rest =>
    let best := max_by_score first rest
    if 0 < best.2 then best.1 else "chill"

/-! ## Track ordering (`src/batch_process.py` lines 77-85)

A track here carries only the fields `order_for_flow` reads.  `bpm = some 0`
is the value `extract_bpm` (`src/fetch_suno.py` lines 121-126) produces when
no tempo is found in the description — the fetcher always stores a `bpm` key —
while `bpm = none` models a dict without the key. -/

structure BTrack where
  title : String
  detected_mood : Option String
  bpm : Option ℕ
deriving DecidableEq

/-- The `mood_order` dict of `order_for_flow` (`src/batch_process.py` line 81). -/
def MOOD_ORDER : List (String × ℕ) := [("chill", 0), ("deep", 1), ("fusion", 2), ("party", 3)]

/-- Lookup `mood_order.get(mood, 0)`. -/
def mood_rank (mood : String) : ℕ := ((MOOD_ORDER.lookup mood).getD 0)

/-- The sort key of `order_for_flow` (`src/batch_process.py` lines 80-83):
`(mood_order.get(track.get('detected_mood', 'chill'), 0), track.get('bpm', 100))`. -/
def sort_key (t : BTrack) : ℕ × ℕ :=
  (mood_rank (t.detected_mood.getD "chill"), t.bpm.getD 100)

/-- Lexicographic comparison of sort keys, Python's tuple `<=`. -/
def track_le (a b : BTrack) : Prop :=
  (sort_key a).1 < (sort_key b).1 ∨
    ((sort_key a).1 = (sort_key b).1 ∧ (sort_key a).2 ≤ (sort_key b).2)

instance : DecidableRel track_le := fun a b => by unfold track_le; infer_instance

/-- Embedding of `order_for_flow` (`src/batch_process.py` lines 77-85):
Python's `sorted` is a stable sort by the key, realised here by the stable
`insertionSort` (any stable sort computes the same list). -/
def order_for_flow (tracks : List BTrack) : List BTrack :=
  List.insertionSort track_le tracks

/-- Modelled from the spec: sort key "`(mood_rank(track.mood), track.tempo or
100)`" — Python's `or` turns both a missing and a zero tempo into 100. -/
def sort_key_spec (t : BTrack) : ℕ × ℕ :=
  (mood_rank (t.detected_mood.getD "chill"),
    if t.bpm.getD 0 = 0 then 100 else t.bpm.getD 0)

/-- Comparison by the spec's key. -/
def track_le_spec (a b : BTrack) : Prop :=
  (sort_key_spec a).1 < (sort_key_spec b).1 ∨
    ((sort_key_spec a).1 = (sort_key_spec b).1 ∧ (sort_key_spec a).2 ≤ (sort_key_spec b).2)

instance : DecidableRel track_le_spec := fun a b => by unfold track_le_spec; infer_instance

/-- Modelled from the spec: the sequencer the spec's words describe. -/
def order_for_flow_spec (tracks : List BTrack) : List BTrack :=
  List.insertionSort track_le_spec tracks

/-! ## Compilation assembly (`src/create_compilation.py`) -/

/-- The fields of a track dict that `create_compilation` reads.  `none` for a
path models a dict whose key is missing (or holds a falsy value). -/
structure CTrack where
  local_audio : Option String
  local_image : Option String
  duration : ℚ
  title : String
deriving DecidableEq

/-- One chapter entry (`src/create_compilation.py` lines 109-113). -/
structure Chapter where
  title : String
  start : ℚ
deriving DecidableEq

/-- The chapter loop (`src/create_compilation.py` lines 105-116) with running
start time `t`: it iterates over ALL tracks of the compilation, including
tracks that the later rendering loop skips. -/
def chaptersFrom (t : ℚ) : List CTrack → List Chapter
  | [] => []
  | tr :: rest => ⟨tr.title, t⟩ :: chaptersFrom (t + tr.duration) rest

/-- Chapter list of a compilation, starting at `current_time = 0.0`. -/
def chapters (tracks : List CTrack) : List Chapter := chaptersFrom 0 tracks

/-- The `segment_files` list at the end of the rendering loop
(`src/create_compilation.py` lines 124-215): the segment path (index `i`
stands for `segment_{i:03d}.mp4`) is appended (line 140) BEFORE ffmpeg runs
(line 211), and a failed render (line 215) does not remove it, so the result
does not depend on the per-track render outcomes `_renderOk`.  Only tracks
with a missing image or audio path are skipped (lines 135-137). -/
def segment_files (tracks : List CTrack) (_renderOk : ℕ → Bool) : List ℕ :=
  (tracks.enum.filter fun ent => ent.2.local_image.isSome && ent.2.local_audio.isSome).map
    Prod.fst

/-- Configuration constant `TEXT_DISPLAY_DURATION = 5` (`src/create_compilation.py:16`). -/
def TEXT_DISPLAY_DURATION : ℚ := 5

/-- The visual transform stages that appear in the two segment filter graphs,
with the numeric parameters the claims are about. -/
inductive FilterStage where
  | scaleCropZoom (frames : ℤ)
  | vignette
  | showfreqs
  | split
  | gblur
  | blend
  | formatRgba
  | geqAlphaRamp
  | overlayBars
  | fadeIn (start dur : ℚ)
  | fadeOut (start dur : ℚ)
  | drawtext
  | drawtextTimed (text_fade_out : ℚ)
deriving DecidableEq

/-- Whether a stage is a global fade. -/
def FilterStage.isFade : FilterStage → Bool
  | .fadeIn _ _ => true
  | .fadeOut _ _ => true
  | _ => false

/-- Stage list of one compilation segment's `filter_complex`
(`src/create_compilation.py` lines 147-195): background scale/crop/zoompan/
vignette, then (if `include_visualizer`) the spectrum, glow and overlay
stages, then the timed title text with `text_fade_out = min(TEXT_DISPLAY_DURATION,
duration - 1)` (line 185).  No fade stage occurs anywhere in this graph. -/
def compilation_segment_stages (include_visualizer : Bool) (duration : ℚ) : List FilterStage :=
  [.scaleCropZoom (total_frames duration), .vignette] ++
    (if include_visualizer then
      [.showfreqs, .split, .gblur, .blend, .formatRgba, .overlayBars]
    else []) ++
    [.drawtextTimed (min TEXT_DISPLAY_DURATION (duration - 1))]

/-! ## Short clips (`src/create_short.py`) -/

/-- Configuration constant `SHORT_DURATION = 45` (`src/create_short.py:16`). -/
def SHORT_DURATION : ℚ := 45

/-- Stage list of `create_short`'s `filter_complex` (`src/create_short.py`
lines 153-172).  Line 169 is the fade chain
`fade=t=in:st=0:d=1,fade=t=out:st={duration-1}:d=1`: the fade-out start is
`duration - 1` with no clamping. -/
def short_segment_stages (duration : ℚ) : List FilterStage :=
  [.scaleCropZoom (total_frames duration), .vignette,
   .showfreqs, .split, .gblur, .blend, .formatRgba, .geqAlphaRamp, .overlayBars,
   .fadeIn 0 1, .fadeOut (duration - 1) 1, .drawtext, .drawtext]

/-- Embedding of `find_hook_section` (`src/create_short.py` lines 198-215).
The float literal `0.15` is modelled as `15/100`. -/
def find_hook_section (track_duration : ℚ) : ℚ :=
  let hook_start := track_duration * (15 / 100)
  let max_start := track_duration - SHORT_DURATION - 5
  if max_start < hook_start then max 0 max_start else hook_start

/-! ## Segment renderer (`src/create_video.py`) -/

/-- Control flow of `create_visualizer_video` (`src/create_video.py` lines
23-311) with the external world passed in: `audio_exists`/`image_exists`/
`mask_exists` are the `os.path.exists` results, `probe_output` is the parsed
ffprobe stdout (`none` when `float(result.stdout.strip())` in
`get_audio_duration`, lines 11-20, cannot parse it and raises `ValueError` —
that call sits OUTSIDE any try/except), `encode_raises`/`encode_exit_zero`
describe the final `subprocess.run`, which IS wrapped in try/except
(lines 302-311).  `.error` models an exception escaping the function. -/
def create_visualizer_video (audio_exists image_exists : Bool) (probe_output : Option ℚ)
    (effect : String) (mask_path : Option String) (mask_exists : Bool)
    (encode_raises : Bool) (encode_exit_zero : Bool) : Except String Bool :=
  if !audio_exists then .ok false
  else if !image_exists then .ok false
  else
    match probe_output with
    | none => .error "ValueError"
    | some _ =>
      if mask_path.isSome && (effect == "masked_glow" || effect == "people_glow")
          && !mask_exists then .ok false
      else if encode_raises then .ok false
      else .ok encode_exit_zero

/-! ## Concrete inputs used by counterexamples and witnesses -/

/-- Three tracks: `A` renders fine, `B` is missing its image and is skipped,
`C` has both assets but its render will fail. -/
def demoTracksC1 : List CTrack :=
  [⟨some "a.mp3", some "a.png", 100, "A"⟩,
   ⟨some "b.mp3", none, 90, "B"⟩,
   ⟨some "c.mp3", some "c.png", 80, "C"⟩]

/-- Render outcome for `demoTracksC1`: the third segment's ffmpeg run fails. -/
def demoRenderOkC1 : ℕ → Bool := fun i => i != 2

/-! ## Helper lemmas about `pymod` and floors -/

theorem pymod_nonneg (a : ℚ) {b : ℚ} (hb : 0 < b) : 0 ≤ pymod a b := by
  have h1 : (⌊a / b⌋ : ℚ) ≤ a / b := Int.floor_le _
  have h2 : b * (⌊a / b⌋ : ℚ) ≤ b * (a / b) := by
    exact mul_le_mul_of_nonneg_left h1 hb.le
  have h3 : b * (a / b) = a := by field_simp
  unfold pymod
  linarith

theorem pymod_lt (a : ℚ) {b : ℚ} (hb : 0 < b) : pymod a b < b := by
  have h1 : a / b < (⌊a / b⌋ : ℚ) + 1 := Int.lt_floor_add_one _
  have h2 : b * (a / b) < b * ((⌊a / b⌋ : ℚ) + 1) := by
    exact mul_lt_mul_of_pos_left h1 hb
  have h3 : b * (a / b) = a := by field_simp
  unfold pymod
  nlinarith

theorem floor_div_intCast (s : ℚ) (n : ℤ) (hn : 0 < n) :
    ⌊s / (n : ℚ)⌋ = ⌊s⌋ / n := by
  have hnq : (0 : ℚ) < (n : ℚ) := by exact_mod_cast hn
  refine le_antisymm ?_ ?_
  · rw [Int.le_ediv_iff_mul_le hn, Int.le_floor]
    have h1 : (⌊s / (n : ℚ)⌋ : ℚ) ≤ s / (n : ℚ) := Int.floor_le _
    have h2 : (⌊s / (n : ℚ)⌋ : ℚ) * (n : ℚ) ≤ (s / (n : ℚ)) * (n : ℚ) :=
      mul_le_mul_of_nonneg_right h1 hnq.le
    have h3 : (s / (n : ℚ)) * (n : ℚ) = s := div_mul_cancel₀ s hnq.ne'
    push_cast
    linarith
  · rw [Int.le_floor, le_div_iff₀ hnq]
    have h2 : (⌊s⌋ / n) * n ≤ ⌊s⌋ := Int.ediv_mul_le ⌊s⌋ hn.ne'
    have h3 : (⌊s⌋ : ℚ) ≤ s := Int.floor_le s
    calc ((⌊s⌋ / n : ℤ) : ℚ) * (n : ℚ) = (((⌊s⌋ / n) * n : ℤ) : ℚ) := by push_cast; ring
    _ ≤ (⌊s⌋ : ℚ) := by exact_mod_cast h2
    _ ≤ s := h3

theorem floor_pymod (s : ℚ) (n : ℤ) (hn : 0 < n) :
    ⌊pymod s (n : ℚ)⌋ = ⌊s⌋ - n * (⌊s⌋ / n) := by
  have h1 : (n : ℚ) * (⌊s / (n : ℚ)⌋ : ℚ) = ((n * ⌊s / (n : ℚ)⌋ : ℤ) : ℚ) := by push_cast; ring
  rw [pymod, h1, Int.floor_sub_int, floor_div_intCast s n hn]

theorem floor_pymod_div (s : ℚ) :
    ⌊pymod s 3600 / 60⌋ = (⌊s⌋ - 3600 * (⌊s⌋ / 3600)) / 60 := by
  have e1 : pymod s 3600 / 60 = s / 60 - ((60 * ⌊s / ((3600 : ℤ) : ℚ)⌋ : ℤ) : ℚ) := by
    rw [pymod]
    push_cast
    ring
  have e2 : ((3600 : ℤ) : ℚ) = (3600 : ℚ) := by norm_num
  rw [e2] at e1
  rw [e1, Int.floor_sub_int]
  have e3 : ⌊s / (60 : ℚ)⌋ = ⌊s⌋ / 60 := by
    have := floor_div_intCast s 60 (by norm_num)
    exact_mod_cast this
  have e4 : ⌊s / (3600 : ℚ)⌋ = ⌊s⌋ / 3600 := by
    have := floor_div_intCast s 3600 (by norm_num)
    exact_mod_cast this
  rw [e3, e4]
  omega

theorem floor_pymod_div_60 (s : ℚ) : ⌊pymod s 60⌋ = ⌊s⌋ - 60 * (⌊s⌋ / 60) := by
  exact_mod_cast floor_pymod s 60 (by norm_num)

/-- C9: `format_timestamp` yields an `H:MM:SS` string (positive hour field,
two-digit minute and second fields below 60) exactly when the offset is at
least one hour, and an `M:SS` string otherwise; `format_timestamp 0 = "0:00"`
and `format_timestamp 3661 = "1:01:01"`. -/
theorem format_timestamp_shape (s : ℚ) (hs : 0 ≤ s) :
    (3600 ≤ s → ∃ h m c : ℤ, 0 < h ∧ 0 ≤ m ∧ m < 60 ∧ 0 ≤ c ∧ c < 60 ∧
        format_timestamp s = toString h ++ ":" ++ pad2 m ++ ":" ++ pad2 c) ∧
    (s < 3600 → ∃ m c : ℤ, 0 ≤ m ∧ m < 60 ∧ 0 ≤ c ∧ c < 60 ∧
        format_timestamp s = toString m ++ ":" ++ pad2 c) ∧
    format_timestamp 0 = "0:00" ∧ format_timestamp 3661 = "1:01:01" := by
  have hm0 : 0 ≤ ⌊pymod s 3600 / 60⌋ :=
    Int.floor_nonneg.mpr (div_nonneg (pymod_nonneg s (by norm_num)) (by norm_num))
  have hm1 : ⌊pymod s 3600 / 60⌋ < 60 := by
    apply Int.floor_lt.mpr
    rw [div_lt_iff₀ (by norm_num : (0:ℚ) < 60)]
    have := pymod_lt s (b := 3600) (by norm_num)
    push_cast
    linarith
  have hc0 : 0 ≤ ⌊pymod s 60⌋ := Int.floor_nonneg.mpr (pymod_nonneg s (by norm_num))
  have hc1 : ⌊pymod s 60⌋ < 60 := by
    apply Int.floor_lt.mpr
    have := pymod_lt s (b := 60) (by norm_num)
    push_cast
    linarith
  refine ⟨?_, ?_, ?_, ?_⟩
  · intro h36
    have hh : 0 < ⌊s / 3600⌋ := by
      have h1 : (1:ℚ) ≤ s / 3600 := by
        rw [le_div_iff₀ (by norm_num : (0:ℚ) < 3600)]; linarith
      have h2 : (1:ℤ) ≤ ⌊s / 3600⌋ := Int.le_floor.mpr (by push_cast; linarith)
      omega
    refine ⟨⌊s / 3600⌋, ⌊pymod s 3600 / 60⌋, ⌊pymod s 60⌋, hh, hm0, hm1, hc0, hc1, ?_⟩
    simp only [format_timestamp]
    rw [if_pos hh]
  · intro h36
    have hh : ⌊s / 3600⌋ = 0 := by
      apply Int.floor_eq_zero_iff.mpr
      refine Set.mem_Ico.mpr ⟨div_nonneg hs (by norm_num), ?_⟩
      rw [div_lt_one (by norm_num : (0:ℚ) < 3600)]
      linarith
    refine ⟨⌊pymod s 3600 / 60⌋, ⌊pymod s 60⌋, hm0, hm1, hc0, hc1, ?_⟩
    simp only [format_timestamp]
    rw [hh]
    norm_num
  · norm_num [format_timestamp, pymod, pad2]; rfl
  · norm_num [format_timestamp, pymod, pad2]; rfl

/-- Witness for `format_timestamp_shape` at concrete inputs. -/
theorem format_timestamp_shape_witness :
    format_timestamp 3661 = "1:01:01" ∧ format_timestamp 0 = "0:00" :=
  ⟨(format_timestamp_shape 3661 (by norm_num)).2.2.2,
   (format_timestamp_shape 0 (by norm_num)).2.2.1⟩

/-- C10: `format_timestamp` only depends on the floor of its argument —
fractional seconds are truncated, never rounded up — and in particular
`format_timestamp 59.9 = "0:59"`.  (The claim's restriction to non-negative
offsets is subsumed: the equation holds for every rational.) -/
theorem format_timestamp_floor_eq :
    (∀ s : ℚ, format_timestamp s = format_timestamp (⌊s⌋ : ℚ)) ∧
    format_timestamp (599 / 10) = "0:59" := by
  constructor
  · intro s
    have e1 : ⌊s / 3600⌋ = ⌊(⌊s⌋ : ℚ) / 3600⌋ := by
      have a1 : ⌊s / (3600:ℚ)⌋ = ⌊s⌋ / 3600 := by
        exact_mod_cast floor_div_intCast s 3600 (by norm_num)
      have a2 : ⌊(⌊s⌋ : ℚ) / (3600:ℚ)⌋ = ⌊(⌊s⌋ : ℚ)⌋ / 3600 := by
        exact_mod_cast floor_div_intCast (⌊s⌋ : ℚ) 3600 (by norm_num)
      rw [a1, a2, Int.floor_intCast]
    have e2 : ⌊pymod s 3600 / 60⌋ = ⌊pymod (⌊s⌋ : ℚ) 3600 / 60⌋ := by
      rw [floor_pymod_div s, floor_pymod_div (⌊s⌋ : ℚ), Int.floor_intCast]
    have e3 : ⌊pymod s 60⌋ = ⌊pymod (⌊s⌋ : ℚ) 60⌋ := by
      rw [floor_pymod_div_60 s, floor_pymod_div_60 (⌊s⌋ : ℚ), Int.floor_intCast]
    simp only [format_timestamp]
    rw [e1, e2, e3]
  · norm_num [format_timestamp, pymod, pad2]; rfl

/-- C5 counterexample: at duration 1.73 s and 30 fps the product is 51.9;
the code's `int()` truncation gives 51 frames while `round` gives 52, so the
frame count is NOT `round(duration × fps)`. -/
theorem total_frames_round_counterexample :
    total_frames (173/100) = 51 ∧ round ((173/100 : ℚ) * VIDEO_FPS) = 52 := by
  constructor
  · norm_num [total_frames, pytrunc, VIDEO_FPS]
  · norm_num [VIDEO_FPS, round_eq]

/-- C5 (amended): for every non-negative duration the frame count is the
truncation `⌊duration × fps⌋` of the product, which is within one below its
rounding — `int()` truncates, it never rounds up. -/
theorem total_frames_floor (d : ℚ) (hd : 0 ≤ d) :
    total_frames d = ⌊d * VIDEO_FPS⌋ ∧
    total_frames d ≤ round (d * VIDEO_FPS) ∧
    round (d * VIDEO_FPS) ≤ total_frames d + 1 := by
  have h0 : 0 ≤ d * VIDEO_FPS := by
    have : (0:ℚ) ≤ VIDEO_FPS := by norm_num [VIDEO_FPS]
    exact mul_nonneg hd this
  have e : total_frames d = ⌊d * VIDEO_FPS⌋ := by
    unfold total_frames pytrunc
    rw [if_pos h0]
  refine ⟨e, ?_, ?_⟩
  · rw [e, round_eq]
    exact Int.floor_le_floor (by linarith)
  · rw [e, round_eq]
    calc ⌊d * VIDEO_FPS + 1/2⌋ ≤ ⌊d * VIDEO_FPS + (1:ℤ)⌋ := by
          apply Int.floor_le_floor
          push_cast
          linarith
    _ = ⌊d * VIDEO_FPS⌋ + 1 := Int.floor_add_int _ 1

/-- Witness for `total_frames_floor` at duration 1.73 s. -/
theorem total_frames_floor_witness :
    total_frames (173/100) = ⌊(173/100 : ℚ) * VIDEO_FPS⌋ ∧
    total_frames (173/100) ≤ round ((173/100 : ℚ) * VIDEO_FPS) ∧
    round ((173/100 : ℚ) * VIDEO_FPS) ≤ total_frames (173/100) + 1 :=
  total_frames_floor (173/100) (by norm_num)

/-- C7 counterexample: for a 40 s track and the default 45 s Short the hook
start is clamped to 0, but the requested audio window `[0, 45]` extends 5 s
past the end of the track, contradicting the claim that the window never
extends past `track.duration`. -/
theorem find_hook_section_window_counterexample :
    find_hook_section 40 = 0 ∧ 40 < find_hook_section 40 + SHORT_DURATION := by
  constructor
  · norm_num [find_hook_section, SHORT_DURATION]
  · norm_num [find_hook_section, SHORT_DURATION]

/-- C7 (amended): the computed hook start is always non-negative; whenever the
track is long enough (`duration ≥ SHORT_DURATION + 5`) it satisfies
`hookStart + SHORT_DURATION + 5 ≤ track.duration`, so the audio window stays
inside the track; but for a track shorter than the Short itself the window
always extends past the track's end, and in particular a 40 s track gets hook
start 0 with a window reaching 45 s. -/
theorem find_hook_section_clamp (d : ℚ) (hd : 0 ≤ d) :
    (0 ≤ find_hook_section d ∧
     (SHORT_DURATION + 5 ≤ d → find_hook_section d + SHORT_DURATION + 5 ≤ d) ∧
     (d < SHORT_DURATION → d < find_hook_section d + SHORT_DURATION)) ∧
    find_hook_section 40 = 0 := by
  constructor
  · simp only [find_hook_section, SHORT_DURATION]
    split_ifs with h
    · refine ⟨le_max_left 0 _, ?_, ?_⟩
      · intro hlong
        rw [max_eq_right (by linarith : (0:ℚ) ≤ d - 45 - 5)]
        linarith
      · intro hshort
        have := le_max_left (0:ℚ) (d - 45 - 5)
        linarith
    · have h15 : 0 ≤ d * (15/100) := mul_nonneg hd (by norm_num)
      refine ⟨h15, ?_, ?_⟩
      · intro hlong
        linarith [not_lt.mp h]
      · intro hshort
        linarith
  · norm_num [find_hook_section, SHORT_DURATION]

/-- Witness for `find_hook_section_clamp` at the claim's own input, 40 s. -/
theorem find_hook_section_clamp_witness :
    (0 ≤ find_hook_section 40 ∧
     (SHORT_DURATION + 5 ≤ 40 → find_hook_section 40 + SHORT_DURATION + 5 ≤ 40) ∧
     ((40:ℚ) < SHORT_DURATION → 40 < find_hook_section 40 + SHORT_DURATION)) ∧
    find_hook_section 40 = 0 :=
  find_hook_section_clamp 40 (by norm_num)

/-- C8 counterexample: with both input files present but unparsable probe
output, `get_audio_duration`'s `float()` call raises a `ValueError` that
escapes `create_visualizer_video` — the function does not return a boolean. -/
theorem create_visualizer_video_raises_counterexample :
    create_visualizer_video true true none "zoom" none true false true =
      .error "ValueError" := rfl

/-- C8 (amended): `create_visualizer_video` returns `False` (without raising)
for a missing audio or image file, for a missing mask on the mask-based
effects, and for a failing or raising encode process, and returns a boolean
whenever the duration probe parses; but when both files exist and the probe
output is unparsable it raises `ValueError` out of the function. -/
theorem create_visualizer_video_return_behavior :
    (∀ (ae ie : Bool) (p : Option ℚ) (eff : String) (mp : Option String) (me er ez : Bool),
        p.isSome = true →
        ∃ b : Bool, create_visualizer_video ae ie p eff mp me er ez = .ok b) ∧
    (∀ (ie : Bool) (p : Option ℚ) (eff : String) (mp : Option String) (me er ez : Bool),
        create_visualizer_video false ie p eff mp me er ez = .ok false) ∧
    (∀ (p : Option ℚ) (eff : String) (mp : Option String) (me er ez : Bool),
        create_visualizer_video true false p eff mp me er ez = .ok false) ∧
    (∀ (q : ℚ) (mpath : String) (er ez : Bool),
        create_visualizer_video true true (some q) "masked_glow" (some mpath) false er ez =
          .ok false ∧
        create_visualizer_video true true (some q) "people_glow" (some mpath) false er ez =
          .ok false) ∧
    (∀ (q : ℚ) (eff : String) (mp : Option String) (me ez : Bool),
        create_visualizer_video true true (some q) eff mp me true ez = .ok false) ∧
    (∀ (q : ℚ) (eff : String) (mp : Option String) (me : Bool),
        create_visualizer_video true true (some q) eff mp me false false = .ok false) ∧
    (∀ (eff : String) (mp : Option String) (me er ez : Bool),
        create_visualizer_video true true none eff mp me er ez = .error "ValueError") := by
  refine ⟨?_, ?_, ?_, ?_, ?_, ?_, ?_⟩
  · intro ae ie p eff mp me er ez hp
    obtain ⟨q, rfl⟩ := Option.isSome_iff_exists.mp hp
    cases ae
    · exact ⟨false, rfl⟩
    · cases ie
      · exact ⟨false, rfl⟩
      · unfold create_visualizer_video
        simp only [Bool.not_true, Bool.false_eq_true, if_false]
        split_ifs
        · exact ⟨false, rfl⟩
        · exact ⟨false, rfl⟩
        · exact ⟨ez, rfl⟩
  · intro ie p eff mp me er ez
    rfl
  · intro p eff mp me er ez
    rfl
  · intro q mpath er ez
    exact ⟨rfl, rfl⟩
  · intro q eff mp me ez
    unfold create_visualizer_video
    simp only [Bool.not_true, Bool.false_eq_true, if_false]
    split_ifs <;> rfl
  · intro q eff mp me
    unfold create_visualizer_video
    simp only [Bool.not_true, Bool.false_eq_true, if_false]
    split_ifs <;> rfl
  · intro eff mp me er ez
    rfl

/-- Witness for `create_visualizer_video_return_behavior`: a successful probe
yields a boolean result. -/
theorem create_visualizer_video_return_behavior_witness :
    ∃ b : Bool, create_visualizer_video true true (some 180) "zoom" none true false true = .ok b :=
  create_visualizer_video_return_behavior.1 true true (some 180) "zoom" none true false true rfl

/-- C6 counterexample: at duration 0.5 s (shorter than twice the 1 s fade) the
Short's filter graph contains the fade-out stage with start `0.5 - 1 = -0.5`,
not the claimed clamp `max(0, duration - fade_duration) = 0`. -/
theorem short_fade_clamp_counterexample :
    FilterStage.fadeOut ((1/2 : ℚ) - 1) 1 ∈ short_segment_stages (1/2) ∧
    ((1/2 : ℚ) - 1) < 0 ∧ max 0 ((1/2 : ℚ) - 1) = 0 := by
  refine ⟨?_, by norm_num, by norm_num⟩
  simp [short_segment_stages]

/-- C6 (amended): the Short's filter graph fades in from black over 1 s from
t = 0 and fades out over 1 s starting at `duration - 1` (so the fade-out ends
exactly at the clip's end), with no clamping of the fade-out start; the
compilation segment graph contains no global fade stage at all. -/
theorem fade_stages_characterization :
    ∀ d : ℚ,
      FilterStage.fadeIn 0 1 ∈ short_segment_stages d ∧
      FilterStage.fadeOut (d - 1) 1 ∈ short_segment_stages d ∧
      (d - 1) + 1 = d ∧
      ((compilation_segment_stages true d).all fun st => !st.isFade) = true ∧
      ((compilation_segment_stages false d).all fun st => !st.isFade) = true := by
  intro d
  refine ⟨?_, ?_, by ring, ?_, ?_⟩
  · simp [short_segment_stages]
  · simp [short_segment_stages]
  · simp [compilation_segment_stages, FilterStage.isFade]
  · simp [compilation_segment_stages, FilterStage.isFade]

/-- C1: evaluation of `create_compilation`'s data flow at a failing input.
Track B (missing image) is rightly skipped from the segment sequence, but the
chapter list still contains all three tracks with offsets that count B's
duration, and segment 2 stays in `segment_files` — and hence in the final
concatenation list — even though its render failed. -/
theorem create_compilation_failing_input :
    segment_files demoTracksC1 demoRenderOkC1 = [0, 2] ∧
    demoRenderOkC1 2 = false ∧
    (chapters demoTracksC1).map Chapter.title = ["A", "B", "C"] ∧
    (chapters demoTracksC1).map Chapter.start = [0, 100, 190] := by
  refine ⟨by decide, by decide, by decide, ?_⟩
  norm_num [chapters, chaptersFrom, demoTracksC1]

/-- C4 counterexample: two chill tracks, one with unknown tempo (`bpm = 0`,
the value `extract_bpm` stores) and one with tempo 50.  The code sorts the
unknown-tempo track FIRST (as tempo 0), while the spec's key
`(mood_rank, tempo or 100)` would sort it after the tempo-50 track. -/
theorem order_for_flow_bpm_zero_counterexample :
    order_for_flow [⟨"fifty", some "chill", some 50⟩, ⟨"unknown", some "chill", some 0⟩] =
      [⟨"unknown", some "chill", some 0⟩, ⟨"fifty", some "chill", some 50⟩] ∧
    order_for_flow_spec [⟨"fifty", some "chill", some 50⟩, ⟨"unknown", some "chill", some 0⟩] =
      [⟨"fifty", some "chill", some 50⟩, ⟨"unknown", some "chill", some 0⟩] :=
  ⟨by decide, by decide⟩

instance : IsTotal BTrack track_le := ⟨by intro a b; unfold track_le; omega⟩

instance : IsTrans BTrack track_le := ⟨by intro a b c; unfold track_le; omega⟩

/-- C4 (amended): `order_for_flow` sorts every track list into a permutation
ordered by the lexicographic key `(mood rank, bpm)`, with the fixed mood order
chill = 0, deep = 1, fusion = 2, party = 3; the tempo component is the stored
`bpm` value itself (so an unknown tempo, stored as 0 by `extract_bpm`, sorts
as 0, first in its mood bucket), and only a track with no `bpm` field at all
sorts as tempo 100. -/
theorem order_for_flow_sorted_perm :
    (∀ tracks : List BTrack, (order_for_flow tracks).Perm tracks) ∧
    (∀ tracks : List BTrack, List.Sorted track_le (order_for_flow tracks)) ∧
    (mood_rank "chill" = 0 ∧ mood_rank "deep" = 1 ∧ mood_rank "fusion" = 2 ∧
      mood_rank "party" = 3) ∧
    (∀ t : BTrack, ∀ b : ℕ, t.bpm = some b → (sort_key t).2 = b) ∧
    (∀ t : BTrack, t.bpm = none → (sort_key t).2 = 100) := by
  refine ⟨?_, ?_, by decide, ?_, ?_⟩
  · intro tracks
    exact List.perm_insertionSort track_le tracks
  · intro tracks
    exact List.sorted_insertionSort track_le tracks
  · intro t b hb
    simp [sort_key, hb]
  · intro t hb
    simp [sort_key, hb]

/-- Witness for `order_for_flow_sorted_perm`: the stored-bpm and missing-bpm
components at concrete tracks. -/
theorem order_for_flow_sorted_perm_witness :
    (sort_key ⟨"unknown", some "chill", some 0⟩).2 = 0 ∧
    (sort_key ⟨"nokey", some "chill", none⟩).2 = 100 :=
  ⟨order_for_flow_sorted_perm.2.2.2.1 ⟨"unknown", some "chill", some 0⟩ 0 rfl,
   order_for_flow_sorted_perm.2.2.2.2 ⟨"nokey", some "chill", none⟩ rfl⟩

/-! ## Chapter computation lemmas (claim C2) -/

theorem chaptersFrom_get (l : List CTrack) :
    ∀ (t0 : ℚ) (i : ℕ) (hi : i < (chaptersFrom t0 l).length),
      ((chaptersFrom t0 l).get ⟨i, hi⟩).start = t0 + ((l.take i).map CTrack.duration).sum := by
  induction l with
  | nil =>
    intro t0 i hi
    simp [chaptersFrom] at hi
  | cons tr rest ih =>
    intro t0 i hi
    cases i with
    | zero => simp [chaptersFrom]
    | succ j =>
      have hj : j < (chaptersFrom (t0 + tr.duration) rest).length := by
        simpa [chaptersFrom] using hi
      have := ih (t0 + tr.duration) j hj
      simp only [chaptersFrom, List.get_cons_succ, List.take_succ_cons, List.map_cons,
        List.sum_cons] at this ⊢
      rw [this]
      ring

theorem chaptersFrom_chain :
    ∀ (t0 : ℚ) (l : List CTrack), (∀ t ∈ l, 0 ≤ t.duration) →
      List.Chain' (· ≤ ·) ((chaptersFrom t0 l).map Chapter.start)
  | _, [], _ => by simp [chaptersFrom]
  | _, [_], _ => by simp [chaptersFrom]
  | t0, tr :: tr2 :: rest, h => by
    have h1 : 0 ≤ tr.duration := h tr (by simp)
    have ih := chaptersFrom_chain (t0 + tr.duration) (tr2 :: rest)
      (fun t ht => h t (List.mem_cons_of_mem tr ht))
    simp only [chaptersFrom, List.map_cons] at ih ⊢
    exact List.Chain'.cons (by linarith) ih

theorem chaptersFrom_getLast :
    ∀ (t0 : ℚ) (l : List CTrack) (c : Chapter) (tr : CTrack),
      (chaptersFrom t0 l).getLast? = some c → l.getLast? = some tr →
      c.start + tr.duration = t0 + (l.map CTrack.duration).sum
  | _, [], _, _ => by simp [chaptersFrom]
  | t0, [a], c, tr => by
    intro hc htr
    simp only [chaptersFrom, List.getLast?_singleton, Option.some.injEq] at hc htr
    subst hc
    subst htr
    simp
  | t0, a :: b :: rest, c, tr => by
    intro hc htr
    have e1 : (chaptersFrom t0 (a :: b :: rest)).getLast? =
        (chaptersFrom (t0 + a.duration) (b :: rest)).getLast? := by
      simp only [chaptersFrom]
      rw [List.getLast?_cons_cons]
    have e2 : (a :: b :: rest).getLast? = (b :: rest).getLast? := List.getLast?_cons_cons ..
    have ih := chaptersFrom_getLast (t0 + a.duration) (b :: rest) c tr
      (by rw [← e1]; exact hc) (by rw [← e2]; exact htr)
    simp only [List.map_cons, List.sum_cons] at ih ⊢
    rw [ih]
    ring

/-- C2: the chapter offsets are exactly the cumulative sums of the preceding
track durations (the first chapter starts at 0); when all durations are
non-negative the offsets are monotonically non-decreasing; and the last
chapter's offset plus its track's duration equals the total duration — here
exactly, so in particular within the claimed 1e-3 tolerance. -/
theorem chapters_cumulative_monotone_total (tracks : List CTrack)
    (h : ∀ t ∈ tracks, 0 ≤ t.duration) :
    (∀ (i : ℕ) (hi : i < (chapters tracks).length),
        ((chapters tracks).get ⟨i, hi⟩).start = ((tracks.take i).map CTrack.duration).sum) ∧
    List.Chain' (· ≤ ·) ((chapters tracks).map Chapter.start) ∧
    (∀ (c : Chapter) (tr : CTrack),
        (chapters tracks).getLast? = some c → tracks.getLast? = some tr →
        |c.start + tr.duration - ((tracks.map CTrack.duration)).sum| ≤ 1 / 1000) := by
  refine ⟨?_, ?_, ?_⟩
  · intro i hi
    have := chaptersFrom_get tracks 0 i hi
    simpa [chapters] using this
  · exact chaptersFrom_chain 0 tracks h
  · intro c tr hc htr
    have := chaptersFrom_getLast 0 tracks c tr (by simpa [chapters] using hc) htr
    rw [zero_add] at this
    rw [this]
    simp

/-- Witness for `chapters_cumulative_monotone_total` at a concrete two-track
compilation. -/
theorem chapters_cumulative_monotone_total_witness :
    List.Chain' (· ≤ ·)
      ((chapters [⟨some "x.mp3", some "x.png", 2, "x"⟩,
                  ⟨some "y.mp3", some "y.png", 3, "y"⟩]).map Chapter.start) :=
  (chapters_cumulative_monotone_total
    [⟨some "x.mp3", some "x.png", 2, "x"⟩, ⟨some "y.mp3", some "y.png", 3, "y"⟩]
    (by decide)).2.1

/-! ## Mood classifier lemmas (claim C3) -/

theorem detect_mood_winner (s : String) (c p d f : ℕ) (w : String) (wsc widx : ℕ)
    (hscores : mood_scores s = [("chill", c), ("party", p), ("deep", d), ("fusion", f)])
    (he : detect_mood s = w)
    (hmem : w ∈ MOODS)
    (hl : score_of s w = wsc)
    (hidx : MOODS.indexOf w = widx)
    (hmax : c ≤ wsc ∧ p ≤ wsc ∧ d ≤ wsc ∧ f ≤ wsc)
    (htie : (c = wsc → widx ≤ 0) ∧ (p = wsc → widx ≤ 1) ∧ (d = wsc → widx ≤ 2) ∧
      (f = wsc → widx ≤ 3)) :
    detect_mood s ∈ MOODS ∧
    (∀ q ∈ mood_scores s, q.2 ≤ score_of s (detect_mood s)) ∧
    (∀ q ∈ mood_scores s, q.2 = score_of s (detect_mood s) →
      MOODS.indexOf (detect_mood s) ≤ MOODS.indexOf q.1) := by
  refine ⟨by rw [he]; exact hmem, ?_, ?_⟩
  · intro q hq
    rw [he, hl]
    rw [hscores] at hq
    simp only [List.mem_cons, List.not_mem_nil, or_false] at hq
    rcases hq with rfl | rfl | rfl | rfl <;> simp <;> omega
  · intro q hq heq
    rw [he, hl] at heq
    rw [he, hidx]
    rw [hscores] at hq
    simp only [List.mem_cons, List.not_mem_nil, or_false] at hq
    rcases hq with rfl | rfl | rfl | rfl
    · show widx ≤ 0
      exact htie.1 heq
    · show widx ≤ 1
      exact htie.2.1 heq
    · show widx ≤ 2
      exact htie.2.2.1 heq
    · show widx ≤ 3
      exact htie.2.2.2 heq

theorem detect_mood_cases (s : String) :
    detect_mood s ∈ MOODS ∧
    (∀ q ∈ mood_scores s, q.2 ≤ score_of s (detect_mood s)) ∧
    (∀ q ∈ mood_scores s, q.2 = score_of s (detect_mood s) →
      MOODS.indexOf (detect_mood s) ≤ MOODS.indexOf q.1) := by
  have hscores : mood_scores s = [("chill", mood_score (py_lower s) CHILL_KW),
      ("party", mood_score (py_lower s) PARTY_KW),
      ("deep", mood_score (py_lower s) DEEP_KW),
      ("fusion", mood_score (py_lower s) FUSION_KW)] := rfl
  set c := mood_score (py_lower s) CHILL_KW with hc
  set p := mood_score (py_lower s) PARTY_KW with hp
  set d := mood_score (py_lower s) DEEP_KW with hd
  set f := mood_score (py_lower s) FUSION_KW with hf
  by_cases h1 : c < p
  · by_cases h2 : p < d
    · by_cases h3 : d < f
      · have h0 : 0 < f := by omega
        have he : detect_mood s = "fusion" := by
          simp only [detect_mood, hscores, max_by_score, List.foldl, pymax_pair]
          simp [h1, h2, h3, h0]
        exact detect_mood_winner s c p d f "fusion" f 3 hscores he (by decide)
          (by simp only [score_of, hscores]; rfl) (by decide)
          ⟨by omega, by omega, by omega, le_refl f⟩
          ⟨fun h => by omega, fun h => by omega, fun h => by omega, fun h => by omega⟩
      · have h0 : 0 < d := by omega
        have he : detect_mood s = "deep" := by
          simp only [detect_mood, hscores, max_by_score, List.foldl, pymax_pair]
          simp [h1, h2, h3, h0]
        exact detect_mood_winner s c p d f "deep" d 2 hscores he (by decide)
          (by simp only [score_of, hscores]; rfl) (by decide)
          ⟨by omega, by omega, le_refl d, by omega⟩
          ⟨fun h => by omega, fun h => by omega, fun h => by omega, fun h => by omega⟩
    · by_cases h3 : p < f
      · have h0 : 0 < f := by omega
        have he : detect_mood s = "fusion" := by
          simp only [detect_mood, hscores, max_by_score, List.foldl, pymax_pair]
          simp [h1, h2, h3, h0]
        exact detect_mood_winner s c p d f "fusion" f 3 hscores he (by decide)
          (by simp only [score_of, hscores]; rfl) (by decide)
          ⟨by omega, by omega, by omega, le_refl f⟩
          ⟨fun h => by omega, fun h => by omega, fun h => by omega, fun h => by omega⟩
      · have h0 : 0 < p := by omega
        have he : detect_mood s = "party" := by
          simp only [detect_mood, hscores, max_by_score, List.foldl, pymax_pair]
          simp [h1, h2, h3, h0]
        exact detect_mood_winner s c p d f "party" p 1 hscores he (by decide)
          (by simp only [score_of, hscores]; rfl) (by decide)
          ⟨by omega, le_refl p, by omega, by omega⟩
          ⟨fun h => by omega, fun h => by omega, fun h => by omega, fun h => by omega⟩
  · by_cases h2 : c < d
    · by_cases h3 : d < f
      · have h0 : 0 < f := by omega
        have he : detect_mood s = "fusion" := by
          simp only [detect_mood, hscores, max_by_score, List.foldl, pymax_pair]
          simp [h1, h2, h3, h0]
        exact detect_mood_winner s c p d f "fusion" f 3 hscores he (by decide)
          (by simp only [score_of, hscores]; rfl) (by decide)
          ⟨by omega, by omega, by omega, le_refl f⟩
          ⟨fun h => by omega, fun h => by omega, fun h => by omega, fun h => by omega⟩
      · have h0 : 0 < d := by omega
        have he : detect_mood s = "deep" := by
          simp only [detect_mood, hscores, max_by_score, List.foldl, pymax_pair]
          simp [h1, h2, h3, h0]
        exact detect_mood_winner s c p d f "deep" d 2 hscores he (by decide)
          (by simp only [score_of, hscores]; rfl) (by decide)
          ⟨by omega, by omega, le_refl d, by omega⟩
          ⟨fun h => by omega, fun h => by omega, fun h => by omega, fun h => by omega⟩
    · by_cases h3 : c < f
      · have h0 : 0 < f := by omega
        have he : detect_mood s = "fusion" := by
          simp only [detect_mood, hscores, max_by_score, List.foldl, pymax_pair]
          simp [h1, h2, h3, h0]
        exact detect_mood_winner s c p d f "fusion" f 3 hscores he (by decide)
          (by simp only [score_of, hscores]; rfl) (by decide)
          ⟨by omega, by omega, by omega, le_refl f⟩
          ⟨fun h => by omega, fun h => by omega, fun h => by omega, fun h => by omega⟩
      · have he : detect_mood s = "chill" := by
          simp only [detect_mood, hscores, max_by_score, List.foldl, pymax_pair]
          simp [h1, h2, h3]
        exact detect_mood_winner s c p d f "chill" c 0 hscores he (by decide)
          (by simp only [score_of, hscores]; rfl) (by decide)
          ⟨le_refl c, by omega, by omega, by omega⟩
          ⟨fun h => by omega, fun h => by omega, fun h => by omega, fun h => by omega⟩

/-- C3 counterexample: on `"party party party soulful moody"` the keyword
`party` occurs three times and the deep keywords `soulful`, `moody` once each,
so occurrence counting would pick `party`; the code counts each keyword at
most once (`party` scores 1, `deep` scores 2) and returns `deep`. -/
theorem detect_mood_occurrence_counterexample :
    detect_mood "party party party soulful moody" = "deep" ∧
    detect_mood_by_occurrences "party party party soulful moody" = "party" ∧
    occ_score (py_lower "party party party soulful moody") PARTY_KW = 3 ∧
    occ_score (py_lower "party party party soulful moody") DEEP_KW = 2 := by
  refine ⟨by decide, by decide, by decide, by decide⟩

/-- C3 (amended): `detect_mood` lower-cases the description, scores each mood
by the NUMBER OF ITS KEYWORDS occurring as substrings (each keyword counted at
most once, not once per occurrence), and returns a mood of maximal score, the
first-declared one on ties (chill, party, deep, fusion); the default on an
all-zero score is `chill`, which is also the first-declared mood, so in all
cases the result is the first-declared mood of maximal score; it is
deterministic, always in {chill, party, deep, fusion}, and
`detect_mood "" = "chill"`. -/
theorem detect_mood_presence_characterization :
    (∀ s : String, detect_mood s ∈ MOODS) ∧
    detect_mood "" = "chill" ∧
    (∀ s : String, ∀ q ∈ mood_scores s, q.2 ≤ score_of s (detect_mood s)) ∧
    (∀ s : String, ∀ q ∈ mood_scores s, q.2 = score_of s (detect_mood s) →
      MOODS.indexOf (detect_mood s) ≤ MOODS.indexOf q.1) :=
  ⟨fun s => (detect_mood_cases s).1, by decide,
   fun s => (detect_mood_cases s).2.1, fun s => (detect_mood_cases s).2.2⟩

/-- Witness for `detect_mood_presence_characterization` on a concrete
description: `deep` attains the maximal score 2 there. -/
theorem detect_mood_presence_characterization_witness :
    ("deep", 2).2 ≤
      score_of "party party party soulful moody"
        (detect_mood "party party party soulful moody") :=
  detect_mood_presence_characterization.2.2.1 "party party party soulful moody"
    ("deep", 2) (by decide)
